import Mathlib

/-!
Verification development for the Parallax Connect web-research subsystem
(server/services/web_search.py, server/services/search_router.py,
server/utils/security.py).

The Python functions are shallowly embedded as executable Lean definitions.
External effects (DNS resolution, HTTP requests, the DuckDuckGo provider,
wall-clock time) are supplied as explicit environment records, so that each
code path becomes a pure function of its inputs.
-/

namespace Parallax

/-! ## String utilities

Python operates on `str` values; we embed the relevant operations on the
underlying character lists.  `strContainsSub hay pat` is the Python
expression erased to characters: it decides whether the
character list of the pattern occurs contiguously inside the character list
of the haystack, i.e. the semantics of the Python `in` operator on strings. -/

/-- Occurrence of `pat` as a contiguous sub-list of `hay` starting at index `i`. -/
def occursAt (hay pat : List Char) (i : Nat) : Bool :=
  pat.isPrefixOf (hay.drop i)

/-- Python `pat in hay` on strings: some starting index yields an occurrence. -/
def containsSub (hay pat : List Char) : Bool :=
  (List.range (hay.length + 1)).any fun i => occursAt hay pat i

/-- String version of `containsSub`. -/
def strContainsSub (hay pat : String) : Bool :=
  containsSub hay.data pat.data

/-- Python `str.lower()` restricted to the ASCII range used by this code base. -/
def strLower (s : String) : String :=
  ⟨s.data.map Char.toLower⟩

/-- Python `" ".join(l)`. -/
def joinSpace (l : List String) : String :=
  ⟨List.intercalate [' '] (l.map String.data)⟩

theorem containsSub_infix_iff (hay pat : List Char) :
    containsSub hay pat = true ↔ pat <:+: hay := by
  constructor
  · intro h
    rcases List.any_eq_true.mp h with ⟨i, _, hocc⟩
    rcases List.isPrefixOf_iff_prefix.mp hocc with ⟨t, ht⟩
    refine ⟨hay.take i, t, ?_⟩
    rw [List.append_assoc, ht]
    exact List.take_append_drop i hay
  · rintro ⟨s, t, rfl⟩
    apply List.any_eq_true.mpr
    refine ⟨s.length, List.mem_range.mpr ?_, ?_⟩
    · simp [List.length_append]
      omega
    · unfold occursAt
      have hdrop : List.drop s.length (s ++ pat ++ t) = pat ++ t := by
        rw [List.append_assoc]
        exact List.drop_left s (pat ++ t)
      rw [hdrop]
      exact List.isPrefixOf_iff_prefix.mpr ⟨t, rfl⟩

/-! ## C10: blocked-domain check

From web_search.py, WebSearchService.__init__ (the static set) and
_is_blocked_domain: the check walks the set and tests each entry with the
Python substring operator against the full URL string. -/

/-- The static blocked-domain set of WebSearchService.__init__. -/
def blockedDomains : List String :=
  [ "mit.edu", "nytimes.com", "wsj.com", "bloomberg.com", "ft.com",
    "economist.com", "washingtonpost.com", "theathletic.com",
    "investing.com", "bitcoinmagazine.com", "tradingview.com", "okx.com",
    "bingx.com", "binance.com", "coinbase.com", "kraken.com",
    "wikipedia.org", "linkedin.com", "twitter.com", "x.com",
    "facebook.com", "instagram.com", "reddit.com", "quora.com",
    "medium.com" ]

/-- _is_blocked_domain: true when some blocked entry occurs as a substring of
the full URL string. -/
def isBlockedDomain (url : String) : Bool :=
  blockedDomains.any fun domain => strContainsSub url domain

/-- C10: the blocked-domain check is a plain substring test over the whole URL
string, not a hostname or registered-domain comparison.  Consequently the URL
https://linux.com/kernel-news on the unrelated host linux.com is classified as
blocked, because its text contains the blocked entry x.com, even though
linux.com itself is not an entry of the set. -/
theorem blocked_domain_substring_semantics :
    (∀ url : String, isBlockedDomain url = true ↔
      ∃ d ∈ blockedDomains, d.data <:+: url.data) ∧
    isBlockedDomain "https://linux.com/kernel-news" = true ∧
    blockedDomains.all (fun d => decide (d ≠ "linux.com")) = true ∧
    ("x.com").data <:+: ("https://linux.com/kernel-news").data := by
  refine ⟨?_, by decide, by decide, by decide⟩
  intro url
  constructor
  · intro h
    rcases List.any_eq_true.mp h with ⟨d, hd, hsub⟩
    exact ⟨d, hd, (containsSub_infix_iff url.data d.data).mp hsub⟩
  · rintro ⟨d, hd, hsub⟩
    exact List.any_eq_true.mpr ⟨d, hd, (containsSub_infix_iff url.data d.data).mpr hsub⟩

/-! ## C3: noise-class matcher

From web_search.py, _scrape_url: the extraction stage joins an element's
class tokens with spaces, lowercases the result, and marks the element as
noise when ANY pattern of the curated list occurs, via the Python substring
operator.  The spec instead demands case-insensitive whole-token
(word-boundary) matching; the repository's own benchmark
(benchmark_soup.py) labels the substring regex the old aggressive one and
the word-boundary regex the safe one, and the test suite imports a
_process_scraped_content function (absent from the shipped module) built on
the word-boundary matcher. -/

/-- The curated noise-class pattern list of _scrape_url. -/
def noiseClassPatterns : List String :=
  [ "ad", "ads", "advert", "advertisement", "banner", "sidebar", "side-bar",
    "side_bar", "comment", "comments", "discussion", "share", "sharing",
    "social", "related", "recommended", "suggestions", "newsletter",
    "subscribe", "signup", "popup", "modal", "overlay", "cookie", "gdpr",
    "consent", "navigation", "breadcrumb", "menu" ]

/-- The joined, lowercased class string an element's class tokens produce. -/
def classesString (classVal : List String) : String :=
  strLower (joinSpace classVal)

/-- The shipped matcher: Python any(pattern in classes for pattern in
noise_class_patterns), i.e. naive substring matching. -/
def matchesNoiseClass (classVal : List String) : Bool :=
  noiseClassPatterns.any fun pattern => strContainsSub (classesString classVal) pattern

/-- A character the regex engine counts as a word character. -/
def isWordChar (c : Char) : Bool :=
  c.isAlphanum || c = '_'

/-- Occurrence of `pat` at index `i` of `s` flanked by word boundaries. -/
def boundaryOccursAt (s pat : List Char) (i : Nat) : Bool :=
  occursAt s pat i
    && (decide (i = 0) || !isWordChar (s.getD (i - 1) ' '))
    && (decide (i + pat.length = s.length) || !isWordChar (s.getD (i + pat.length) ' '))

/-- Modelled from the spec: the word-boundary noise matcher that the spec
(and the repository's benchmark and tests) describe, but which is missing
from the shipped module: a pattern matches only as a standalone token of the
lowercased joined class string. -/
def matchesNoiseClassBoundary (classVal : List String) : Bool :=
  noiseClassPatterns.any fun pattern =>
    let s := (classesString classVal).data
    let p := pattern.data
    (List.range (s.length + 1)).any fun i => boundaryOccursAt s p i

/-- C3 (code bug evidence): the claim says the matcher must accept the class
tokens ad, ads, text-ad and advertisement while rejecting shadow, add,
gradient and thread.  The shipped substring matcher accepts all eight —
shadow, add, gradient and thread are wrongly treated as noise because they
contain the substring ad — whereas the word-boundary matcher the spec
describes accepts exactly the first four. -/
theorem noise_matcher_substring_bug :
    ([["ad"], ["ads"], ["text-ad"], ["advertisement"]].all fun c =>
        matchesNoiseClass c) = true ∧
    ([["shadow"], ["add"], ["gradient"], ["thread"]].all fun c =>
        matchesNoiseClass c) = true ∧
    ([["ad"], ["ads"], ["text-ad"], ["advertisement"]].all fun c =>
        matchesNoiseClassBoundary c) = true ∧
    ([["shadow"], ["add"], ["gradient"], ["thread"]].all fun c =>
        !matchesNoiseClassBoundary c) = true := by
  refine ⟨by decide, by decide, by decide, by decide⟩

/-! ## C6: sliding-window rate limiter

From web_search.py, _enforce_rate_limit.  The mutable deque of admitted
timestamps becomes an explicit list argument (front = oldest), the current
wall clock an explicit argument; clock readings are modelled as integers
(the logic uses only ordering and the 60-second offset).  The result is
none when the call raises the 429 rejection and some newTimestamps when it
is admitted. -/

/-- _enforce_rate_limit: early return when the configured ceiling is 0;
otherwise prune timestamps strictly older than the trailing 60-second
window from the front, reject when the remaining count reaches the
ceiling, and append the current time on admission. -/
def enforceRateLimit (limit : Nat) (now : ℤ) (ts : List ℤ) : Option (List ℤ) :=
  if limit = 0 then some ts
  else
    let pruned := ts.dropWhile fun t => decide (t < now - 60)
    if limit ≤ pruned.length then none
    else some (pruned ++ [now])

theorem dropWhile_lt_eq_filter_of_sorted (c : ℤ) (ts : List ℤ)
    (h : ts.Sorted (· ≤ ·)) :
    ts.dropWhile (fun t => decide (t < c)) = ts.filter (fun t => decide (c ≤ t)) := by
  induction ts with
  | nil => rfl
  | cons t rest ih =>
    rcases List.sorted_cons.mp h with ⟨hall, htail⟩
    rw [List.dropWhile_cons, List.filter_cons]
    by_cases hlt : t < c
    · have hnle : ¬ c ≤ t := not_le.mpr hlt
      simp only [hlt, hnle]
      simpa using ih htail
    · have hle : c ≤ t := not_lt.mp hlt
      have hkeep : ∀ x ∈ rest, (fun t => decide (c ≤ t)) x = true := fun x hx =>
        decide_eq_true (le_trans hle (hall x hx))
      simp [hlt, hle, List.filter_eq_self.mpr hkeep]

/-- C6 (counterexample): with a configured ceiling of 0 the claim predicts a
rejection on every call — the in-window admitted count, 0, is at or above the
ceiling — but the implementation returns early and admits the call without
even recording its timestamp. -/
theorem rate_limiter_zero_ceiling_counterexample :
    enforceRateLimit 0 100 [] = some [] ∧
    ¬(enforceRateLimit 0 100 [] = none ↔
        0 ≤ (([] : List ℤ).filter fun t => decide ((100 : ℤ) - 60 ≤ t)).length) := by
  constructor
  · rfl
  · intro h
    exact absurd (h.mpr (Nat.zero_le _)) (by simp [enforceRateLimit])

/-- C6 (amended): for a positive ceiling N the call is rejected exactly when
the number of previously admitted timestamps inside the trailing 60-second
window is at or above N; an admitted call prunes every timestamp older than
the window and records the current time; in particular once every recorded
timestamp has aged past the window the next call is admitted. -/
theorem rate_limiter_sliding_window (limit : Nat) (now : ℤ) (ts : List ℤ)
    (hpos : 0 < limit) (hsorted : ts.Sorted (· ≤ ·)) :
    (enforceRateLimit limit now ts = none ↔
      limit ≤ ((ts.filter fun t => decide (now - 60 ≤ t)).length)) ∧
    ((ts.filter fun t => decide (now - 60 ≤ t)).length < limit →
      enforceRateLimit limit now ts =
        some ((ts.filter fun t => decide (now - 60 ≤ t)) ++ [now])) ∧
    ((∀ t ∈ ts, t < now - 60) → enforceRateLimit limit now ts = some [now]) := by
  have hne : limit ≠ 0 := Nat.pos_iff_ne_zero.mp hpos
  have hdrop := dropWhile_lt_eq_filter_of_sorted (now - 60) ts hsorted
  have hview : enforceRateLimit limit now ts =
      (if limit ≤ ((ts.filter fun t => decide (now - 60 ≤ t)).length) then none
       else some ((ts.filter fun t => decide (now - 60 ≤ t)) ++ [now])) := by
    unfold enforceRateLimit
    rw [if_neg hne, hdrop]
  refine ⟨?_, ?_, ?_⟩
  · rw [hview]
    by_cases hc : limit ≤ ((ts.filter fun t => decide (now - 60 ≤ t)).length)
    · rw [if_pos hc]
      exact iff_of_true rfl hc
    · rw [if_neg hc]
      exact iff_of_false (Option.some_ne_none _) hc
  · intro hlt
    rw [hview, if_neg (Nat.not_le.mpr hlt)]
  · intro hall
    have hfilter : (ts.filter fun t => decide (now - 60 ≤ t)) = [] := by
      apply List.filter_eq_nil_iff.mpr
      intro t ht
      simp only [decide_eq_true_eq]
      exact not_le.mpr (hall t ht)
    rw [hview, hfilter]
    have hlen : ¬ limit ≤ ([] : List ℤ).length := by
      simpa using hne
    rw [if_neg hlen]
    simp

/-- C6 witness: ceiling 2, two admitted timestamps inside the window — the
third call is rejected; and with both timestamps aged out, admitted again. -/
theorem rate_limiter_sliding_window_witness :
    enforceRateLimit 2 100 [50, 90] = none ∧
    enforceRateLimit 2 200 [50, 90] = some [200] := by
  constructor
  · exact (rate_limiter_sliding_window 2 100 [50, 90] (by decide)
      (by decide)).1.mpr (by decide)
  · exact (rate_limiter_sliding_window 2 200 [50, 90] (by decide)
      (by decide)).2.2 (by decide)

/-! ## C1: URL safety validator

From server/utils/security.py.  urlparse and getaddrinfo are external
effects: the embedding takes the parsed hostname (urlparse(url).hostname,
none when the URL has no hostname) and a resolver environment
(socket.getaddrinfo; none models a raised gaierror, i.e. DNS failure).
Addresses are modelled in their parsed form: the IPv4 fragment of the
Python ipaddress classification, as a 32-bit natural, plus a constructor
for strings ipaddress.ip_address rejects with ValueError.  The range
predicates transcribe the iana-ipv4-special-registry networks that
ipaddress uses for is_private, and the standard ranges for is_loopback,
is_link_local, is_multicast and is_reserved. -/

/-- The 32-bit value of the dotted quad a.b.c.d. -/
def ipv4 (a b c d : Nat) : Nat :=
  ((a * 256 + b) * 256 + c) * 256 + d

/-- Membership of address n in the CIDR network base/len. -/
def inNet (n base len : Nat) : Bool :=
  n / 2 ^ (32 - len) == base / 2 ^ (32 - len)

/-- IPv4Address.is_private (iana-ipv4-special-registry). -/
def v4_is_private (n : Nat) : Bool :=
  inNet n (ipv4 0 0 0 0) 8 || inNet n (ipv4 10 0 0 0) 8 ||
  inNet n (ipv4 127 0 0 0) 8 || inNet n (ipv4 169 254 0 0) 16 ||
  inNet n (ipv4 172 16 0 0) 12 || inNet n (ipv4 192 0 0 0) 29 ||
  inNet n (ipv4 192 0 0 170) 31 || inNet n (ipv4 192 0 2 0) 24 ||
  inNet n (ipv4 192 168 0 0) 16 || inNet n (ipv4 198 18 0 0) 15 ||
  inNet n (ipv4 198 51 100 0) 24 || inNet n (ipv4 203 0 113 0) 24 ||
  inNet n (ipv4 240 0 0 0) 4 || inNet n (ipv4 255 255 255 255) 32

/-- IPv4Address.is_loopback (127.0.0.0/8). -/
def v4_is_loopback (n : Nat) : Bool := inNet n (ipv4 127 0 0 0) 8

/-- IPv4Address.is_link_local (169.254.0.0/16). -/
def v4_is_link_local (n : Nat) : Bool := inNet n (ipv4 169 254 0 0) 16

/-- IPv4Address.is_multicast (224.0.0.0/4). -/
def v4_is_multicast (n : Nat) : Bool := inNet n (ipv4 224 0 0 0) 4

/-- IPv4Address.is_reserved (240.0.0.0/4). -/
def v4_is_reserved (n : Nat) : Bool := inNet n (ipv4 240 0 0 0) 4

/-- An address string returned by getaddrinfo, in parsed form. -/
inductive ResolvedAddr
  | v4 (n : Nat)
  | malformed (s : String)
  deriving DecidableEq

/-- is_ip_allowed: False when ip_address raises ValueError, otherwise the
negation of the five-way category disjunction of security.py. -/
def is_ip_allowed : ResolvedAddr → Bool
  | .malformed _ => false
  | .v4 n =>
      !(v4_is_private n || v4_is_loopback n || v4_is_link_local n ||
        v4_is_multicast n || v4_is_reserved n)

/-- validate_url: no hostname fails; DNS failure fails; otherwise the
for-loop that returns False at the first disallowed resolved address and
True at the end is List.all is_ip_allowed. -/
def validate_url (resolve : String → Option (List ResolvedAddr))
    (hostname : Option String) : Bool :=
  match hostname with
  | none => false
  | some h =>
    match resolve h with
    | none => false
    | some addrs => addrs.all is_ip_allowed

/-- C1: validate_url fails closed — it is false when the URL has no hostname,
false when DNS resolution fails, false as soon as any resolved address falls
in a private, loopback, link-local, multicast or reserved range, and true
exactly when the hostname resolves and every resolved address is public. -/
theorem validate_url_fail_closed (resolve : String → Option (List ResolvedAddr))
    (hostname : Option String) :
    (hostname = none → validate_url resolve hostname = false) ∧
    (∀ h, hostname = some h → resolve h = none →
      validate_url resolve hostname = false) ∧
    (∀ h addrs n, hostname = some h → resolve h = some addrs →
      ResolvedAddr.v4 n ∈ addrs →
      (v4_is_private n || v4_is_loopback n || v4_is_link_local n ||
        v4_is_multicast n || v4_is_reserved n) = true →
      validate_url resolve hostname = false) ∧
    (validate_url resolve hostname = true ↔
      ∃ h addrs, hostname = some h ∧ resolve h = some addrs ∧
        ∀ a ∈ addrs, is_ip_allowed a = true) := by
  refine ⟨?_, ?_, ?_, ?_⟩
  · rintro rfl; rfl
  · rintro h rfl hres
    simp [validate_url, hres]
  · rintro h addrs n rfl hres hmem hbad
    simp only [validate_url, hres]
    apply Bool.eq_false_iff.mpr
    intro hall
    have := List.all_eq_true.mp hall _ hmem
    rw [is_ip_allowed, hbad] at this
    exact Bool.false_ne_true this
  · constructor
    · intro htrue
      rcases hostname with _ | h
      · exact absurd htrue (by simp [validate_url])
      · rcases hr : resolve h with _ | addrs
        · simp only [validate_url, hr] at htrue
          exact Bool.noConfusion htrue
        · simp only [validate_url, hr] at htrue
          exact ⟨h, addrs, rfl, hr, List.all_eq_true.mp htrue⟩
    · rintro ⟨h, addrs, rfl, hres, hall⟩
      simp only [validate_url, hres]
      exact List.all_eq_true.mpr hall

/-- A concrete resolver: internal.example resolves to 8.8.8.8 and 10.0.0.1. -/
def resolveMixed : String → Option (List ResolvedAddr) :=
  fun h =>
    if h = "internal.example" then
      some [ResolvedAddr.v4 (ipv4 8 8 8 8), ResolvedAddr.v4 (ipv4 10 0 0 1)]
    else none

/-- C1 witness: a hostname resolving to the mixed set {8.8.8.8, 10.0.0.1} is
rejected because 10.0.0.1 is private — one public address earns no trust. -/
theorem validate_url_fail_closed_witness :
    validate_url resolveMixed (some "internal.example") = false := by
  exact (validate_url_fail_closed resolveMixed (some "internal.example")).2.2.1
    "internal.example" [ResolvedAddr.v4 (ipv4 8 8 8 8), ResolvedAddr.v4 (ipv4 10 0 0 1)]
    (ipv4 10 0 0 1) rfl (by decide) (by decide) (by decide)

/-! ## C8: sentence-aware truncation

From web_search.py, _scrape_url, the block following text extraction:
split into words, join the first maxWords back with single spaces, take the
greatest of the rfind positions of the three terminators, cut there when
the position clears 70 percent of the window length, else hard-truncate
with an ellipsis.  Python compares sentence_end > len(t) * 0.7 in floating
point; we model the comparison exactly as 10 * sentence_end > 7 * len,
which agrees with the float comparison away from exact-boundary lengths
(the double closest to 0.7 lies below 7/10, and no claim input sits on the
boundary). -/

/-- Python str.split(): split on whitespace runs and drop empty pieces. -/
def splitWords (text : List Char) : List (List Char) :=
  (text.splitOnP Char.isWhitespace).filter (fun w => !w.isEmpty)

/-- Python " ".join(words[:max_words]). -/
def truncWindow (text : List Char) (maxWords : Nat) : List Char :=
  List.intercalate [' '] ((splitWords text).take maxWords)

/-- The greatest occurrence index (0 when there is none). -/
def rfindAux (hay pat : List Char) : Nat :=
  Nat.findGreatest (fun i => occursAt hay pat i = true) hay.length

/-- Python hay.rfind(pat): greatest starting index of an occurrence, -1 if
the pattern does not occur. -/
def rfind (hay pat : List Char) : Int :=
  if ((List.range (hay.length + 1)).any fun i => occursAt hay pat i) = true then
    (rfindAux hay pat : Int)
  else -1

/-- max(rfind(". "), rfind("! "), rfind("? ")) of the truncation block. -/
def sentenceEnd (t : List Char) : Int :=
  max (max (rfind t ['.', ' ']) (rfind t ['!', ' '])) (rfind t ['?', ' '])

/-- The truncation block of _scrape_url, producing final_text from the
extracted text. -/
def truncateContent (text : List Char) (maxWords : Nat) : List Char :=
  let words := splitWords text
  if maxWords < words.length then
    let t := truncWindow text maxWords
    if 7 * (t.length : ℤ) < 10 * sentenceEnd t then
      t.take (sentenceEnd t + 1).toNat
    else
      t ++ ['.', '.', '.']
  else text

/-- A sentence terminator (".", "!" or "?" followed by a space) at index i. -/
def termAt (t : List Char) (i : Nat) : Prop :=
  occursAt t ['.', ' '] i = true ∨ occursAt t ['!', ' '] i = true ∨
    occursAt t ['?', ' '] i = true

/-- What a Python rfind result is: -1 with no occurrence, or the greatest
occurrence index. -/
def OccSpec (r : Int) (P : Nat → Prop) : Prop :=
  (r = -1 ∧ ∀ i, ¬ P i) ∨ (∃ j : Nat, r = (j : Int) ∧ P j ∧ ∀ k, P k → k ≤ j)

instance termAtDecidable (t : List Char) (i : Nat) : Decidable (termAt t i) := by
  unfold termAt
  infer_instance

theorem occursAt_le_length {hay pat : List Char} {i : Nat} (hp : pat ≠ [])
    (h : occursAt hay pat i = true) : i ≤ hay.length := by
  by_contra hgt
  push_neg at hgt
  unfold occursAt at h
  rw [List.drop_eq_nil_of_le (le_of_lt hgt)] at h
  exact hp (List.prefix_nil.mp (List.isPrefixOf_iff_prefix.mp h))

theorem findGreatest_occurs (P : ℕ → Prop) [DecidablePred P] {i n : ℕ}
    (hle : i ≤ n) (hi : P i) : P (Nat.findGreatest P n) :=
  Nat.findGreatest_spec hle hi

theorem findGreatest_greatest (P : ℕ → Prop) [DecidablePred P] {k n : ℕ}
    (h : Nat.findGreatest P n < k) (hk : k ≤ n) : ¬ P k :=
  Nat.findGreatest_is_greatest h hk

theorem rfind_spec (t pat : List Char) (hp : pat ≠ []) :
    OccSpec (rfind t pat) (fun i => occursAt t pat i = true) := by
  unfold rfind
  by_cases hany : ((List.range (t.length + 1)).any fun i => occursAt t pat i) = true
  · right
    rw [if_pos hany]
    rcases List.any_eq_true.mp hany with ⟨i, _, hi⟩
    refine ⟨rfindAux t pat, rfl, ?_, ?_⟩
    · show occursAt t pat (rfindAux t pat) = true
      unfold rfindAux
      exact findGreatest_occurs (fun i => occursAt t pat i = true)
        (occursAt_le_length hp hi) hi
    · intro k hk
      by_contra hgtk
      push_neg at hgtk
      have hgtk2 : Nat.findGreatest (fun i => occursAt t pat i = true) t.length < k := hgtk
      exact absurd hk (findGreatest_greatest (fun i => occursAt t pat i = true)
        hgtk2 (occursAt_le_length hp hk))
  · left
    rw [if_neg hany]
    refine ⟨rfl, fun i hocc => ?_⟩
    exact hany (List.any_eq_true.mpr
      ⟨i, List.mem_range.mpr (Nat.lt_succ_of_le (occursAt_le_length hp hocc)), hocc⟩)

theorem occSpec_max {a b : Int} {P Q : Nat → Prop} (ha : OccSpec a P)
    (hb : OccSpec b Q) : OccSpec (max a b) (fun i => P i ∨ Q i) := by
  rcases ha with ⟨ha1, ha2⟩ | ⟨j, hj, hPj, hjmax⟩
  · rcases hb with ⟨hb1, hb2⟩ | ⟨k, hk, hQk, hkmax⟩
    · left
      refine ⟨by rw [ha1, hb1]; rfl, fun i hi => ?_⟩
      rcases hi with h | h
      · exact ha2 i h
      · exact hb2 i h
    · right
      refine ⟨k, ?_, Or.inr hQk, fun m hm => ?_⟩
      · rw [ha1, hk]
        exact max_eq_right (le_trans (by norm_num) (Int.natCast_nonneg k))
      · rcases hm with h | h
        · exact absurd h (ha2 m)
        · exact hkmax m h
  · rcases hb with ⟨hb1, hb2⟩ | ⟨k, hk, hQk, hkmax⟩
    · right
      refine ⟨j, ?_, Or.inl hPj, fun m hm => ?_⟩
      · rw [hj, hb1]
        exact max_eq_left (le_trans (by norm_num) (Int.natCast_nonneg j))
      · rcases hm with h | h
        · exact hjmax m h
        · exact absurd h (hb2 m)
    · right
      refine ⟨max j k, ?_, ?_, fun m hm => ?_⟩
      · rw [hj, hk, Nat.cast_max]
      · rcases le_total j k with h | h
        · rw [max_eq_right h]
          exact Or.inr hQk
        · rw [max_eq_left h]
          exact Or.inl hPj
      · rcases hm with h | h
        · exact le_trans (hjmax m h) (le_max_left j k)
        · exact le_trans (hkmax m h) (le_max_right j k)

theorem sentenceEnd_spec (t : List Char) : OccSpec (sentenceEnd t) (termAt t) := by
  have h1 := rfind_spec t ['.', ' '] (by decide)
  have h2 := rfind_spec t ['!', ' '] (by decide)
  have h3 := rfind_spec t ['?', ' '] (by decide)
  have h := occSpec_max (occSpec_max h1 h2) h3
  rcases h with ⟨he, hnone⟩ | ⟨j, hj, hocc, hmax⟩
  · left
    refine ⟨he, fun i hi => hnone i ?_⟩
    rcases hi with h | h | h
    · exact Or.inl (Or.inl h)
    · exact Or.inl (Or.inr h)
    · exact Or.inr h
  · right
    refine ⟨j, hj, ?_, fun k hk => hmax k ?_⟩
    · rcases hocc with (h | h) | h
      · exact Or.inl h
      · exact Or.inr (Or.inl h)
      · exact Or.inr (Or.inr h)
    · rcases hk with h | h | h
      · exact Or.inl (Or.inl h)
      · exact Or.inl (Or.inr h)
      · exact Or.inr h

/-- 20 words with a sentence boundary at the end of word 4. -/
def exWithBoundary : String :=
  "One two thr fou. aaa bbb ccc ddd eee fff ggg hhh iii jjj kkk lll mmm nnn ooo ppp"

/-- 20 words with no sentence boundary anywhere. -/
def exNoBoundary : String :=
  "One two thr fou fiv six svn egt nin ten e11 e12 e13 e14 e15 e16 e17 e18 e19 e20"

/-- C8: when the text has more words than maxWords, the output is built from
the window of the first maxWords words; if some terminator sits past the 70
percent point of that window, the window is cut just after the LAST
terminator and no ellipsis is appended; otherwise the whole window is kept
with "..." appended; texts within the budget pass through unchanged.  In
particular, on a 20-word input with maxWords = 5 and a boundary at word 4
the output is exactly the first four words plus the terminator, and with no
boundary in range it is the 5-word window plus "...". -/
theorem truncation_sentence_boundary (text : List Char) (maxWords : Nat) :
    ((splitWords text).length ≤ maxWords → truncateContent text maxWords = text) ∧
    (maxWords < (splitWords text).length →
      ((∃ i, termAt (truncWindow text maxWords) i ∧
          7 * ((truncWindow text maxWords).length : ℤ) < 10 * (i : ℤ)) →
        ∃ j, termAt (truncWindow text maxWords) j ∧
          (∀ k, termAt (truncWindow text maxWords) k → k ≤ j) ∧
          7 * ((truncWindow text maxWords).length : ℤ) < 10 * (j : ℤ) ∧
          truncateContent text maxWords = (truncWindow text maxWords).take (j + 1)) ∧
      ((¬ ∃ i, termAt (truncWindow text maxWords) i ∧
          7 * ((truncWindow text maxWords).length : ℤ) < 10 * (i : ℤ)) →
        truncateContent text maxWords =
          truncWindow text maxWords ++ ['.', '.', '.'])) ∧
    truncateContent exWithBoundary.data 5 = ("One two thr fou.").data ∧
    (splitWords exWithBoundary.data).length = 20 ∧
    truncateContent exNoBoundary.data 5 = ("One two thr fou fiv...").data ∧
    (splitWords exNoBoundary.data).length = 20 := by
  refine ⟨?_, ?_, by decide, by decide, by decide, by decide⟩
  · intro hle
    unfold truncateContent
    rw [if_neg (Nat.not_lt.mpr hle)]
  · intro hgt
    have hspec := sentenceEnd_spec (truncWindow text maxWords)
    constructor
    · rintro ⟨i, hterm, hcut⟩
      rcases hspec with ⟨_, hnone⟩ | ⟨j, hj, hoccj, hmaxj⟩
      · exact absurd hterm (hnone i)
      · have hij : i ≤ j := hmaxj i hterm
        have hcutj : 7 * ((truncWindow text maxWords).length : ℤ) < 10 * (j : ℤ) :=
          lt_of_lt_of_le hcut (by exact_mod_cast Nat.mul_le_mul_left 10 hij)
        refine ⟨j, hoccj, hmaxj, hcutj, ?_⟩
        unfold truncateContent
        rw [if_pos hgt, if_pos (by rw [hj]; exact hcutj)]
        rw [hj]
        have htn : ((j : ℤ) + 1).toNat = j + 1 := by omega
        rw [htn]
    · intro hnone
      rcases hspec with ⟨he, _⟩ | ⟨j, hj, hoccj, _⟩
      · unfold truncateContent
        rw [if_pos hgt, if_neg]
        rw [he]
        have : (0 : ℤ) ≤ 7 * ((truncWindow text maxWords).length : ℤ) := by positivity
        omega
      · unfold truncateContent
        rw [if_pos hgt, if_neg]
        rw [hj]
        intro hcon
        exact hnone ⟨j, hoccj, hcon⟩

/-- C8 witness: the general truncation theorem applied at the concrete
boundary example, with the hypotheses discharged by computation. -/
theorem truncation_sentence_boundary_witness :
    ∃ j, termAt (truncWindow exWithBoundary.data 5) j ∧
      (∀ k, termAt (truncWindow exWithBoundary.data 5) k → k ≤ j) ∧
      7 * ((truncWindow exWithBoundary.data 5).length : ℤ) < 10 * (j : ℤ) ∧
      truncateContent exWithBoundary.data 5 =
        (truncWindow exWithBoundary.data 5).take (j + 1) :=
  ((truncation_sentence_boundary exWithBoundary.data 5).2.1 (by decide)).1
    ⟨15, by decide, by decide⟩

/-! ## C2: SSRF-hardened manual redirect loop

From web_search.py, _scrape_url, the while-loop with follow_redirects=False.
The HTTP client and the validator are an environment; the loop becomes a
fuel-indexed recursion whose fuel equals maxRedirects - redirect_count at
every call (the top-level call starts at fuel = maxRedirects, count = 0, and
each followed redirect increments count and decrements fuel), so the fuel
guard and the Python loop condition redirect_count < max_redirects coincide.
The first component of the result is the list of URLs actually requested, in
order; the second is how the loop exited. -/

structure HttpResponse where
  status : Nat
  location : Option String
  body : String
  deriving DecidableEq

structure FetchEnv where
  validate : String → Bool
  get : String → HttpResponse
  join : String → String → String

/-- max_redirects of _scrape_url. -/
def maxRedirects : Nat := 5

inductive LoopExit
  | blockedHop (url : String)
  | finished (count : Nat) (resp : Option HttpResponse)
  deriving DecidableEq

/-- The manual redirect while-loop.  Before each request the validator runs
on the current target; a failed validation exits with blockedHop (the Python
return ""), a non-redirect response or a redirect without Location breaks
with the response, and exhausting the cap exits with the carried response. -/
def loopFuel (env : FetchEnv) :
    Nat → String → Nat → Option HttpResponse → List String × LoopExit
  | 0, _, count, resp => ([], .finished count resp)
  | fuel + 1, current, count, resp =>
    if count < maxRedirects then
      if env.validate current = false then ([], .blockedHop current)
      else
        let r := env.get current
        if 300 ≤ r.status ∧ r.status < 400 then
          match r.location with
          | none => ([current], .finished count (some r))
          | some loc =>
            let rest := loopFuel env fuel (env.join current loc) (count + 1) (some r)
            (current :: rest.1, rest.2)
        else ([current], .finished count (some r))
    else ([], .finished count resp)

/-- _scrape_url around the loop: abort with "" on a blocked hop, on a missing
response, on a redirect still pending at the cap, and on any non-200 status;
otherwise hand the response to the extraction stage (the render argument). -/
def fetchAndExtract (env : FetchEnv) (render : HttpResponse → String)
    (url : String) : String :=
  match (loopFuel env maxRedirects url 0 none).2 with
  | .blockedHop _ => ""
  | .finished count resp? =>
    match resp? with
    | none => ""
    | some r =>
      if maxRedirects ≤ count ∧ 300 ≤ r.status then ""
      else if r.status ≠ 200 then ""
      else render r

theorem loopFuel_invariants (env : FetchEnv) :
    ∀ (fuel : Nat) (current : String) (count : Nat) (resp : Option HttpResponse),
      (∀ u ∈ (loopFuel env fuel current count resp).1, env.validate u = true) ∧
      (loopFuel env fuel current count resp).1.length ≤ fuel ∧
      (∀ u, (loopFuel env fuel current count resp).2 = .blockedHop u →
        env.validate u = false) ∧
      (∀ c r, (loopFuel env fuel current count resp).2 = .finished c r →
        c ≤ count + fuel) := by
  intro fuel
  induction fuel with
  | zero =>
    intro current count resp
    refine ⟨by simp [loopFuel], by simp [loopFuel], ?_, ?_⟩
    · intro u h
      simp [loopFuel] at h
    · intro c r h
      simp only [loopFuel, LoopExit.finished.injEq] at h
      omega
  | succ fuel ih =>
    intro current count resp
    show _ ∧ _ ∧ _ ∧ _
    unfold loopFuel
    by_cases hcnt : count < maxRedirects
    · rw [if_pos hcnt]
      by_cases hval : env.validate current = false
      · rw [if_pos hval]
        refine ⟨by simp, by simp, ?_, ?_⟩
        · intro u h
          simp only [LoopExit.blockedHop.injEq] at h
          rw [← h]
          exact hval
        · intro c r h
          simp at h
      · rw [if_neg hval]
        rw [Bool.not_eq_false] at hval
        by_cases hredir : 300 ≤ (env.get current).status ∧ (env.get current).status < 400
        · rw [if_pos hredir]
          rcases hloc : (env.get current).location with _ | loc
          · refine ⟨?_, by simp, ?_, ?_⟩
            · intro u h
              simp only [List.mem_singleton] at h
              rw [h]
              exact hval
            · intro u h
              simp at h
            · intro c r h
              simp only [LoopExit.finished.injEq] at h
              omega
          · obtain ⟨ihv, ihlen, ihblk, ihcnt⟩ :=
              ih (env.join current loc) (count + 1) (some (env.get current))
            refine ⟨?_, ?_, ?_, ?_⟩
            · intro u h
              rcases List.mem_cons.mp h with h | h
              · rw [h]
                exact hval
              · exact ihv u h
            · simpa using Nat.succ_le_succ ihlen
            · exact ihblk
            · intro c r h
              have := ihcnt c r h
              omega
        · rw [if_neg hredir]
          refine ⟨?_, by simp, ?_, ?_⟩
          · intro u h
            simp only [List.mem_singleton] at h
            rw [h]
            exact hval
          · intro u h
            simp at h
          · intro c r h
            simp only [LoopExit.finished.injEq] at h
            omega
    · rw [if_neg hcnt]
      refine ⟨by simp, by simp, ?_, ?_⟩
      · intro u h
        simp at h
      · intro c r h
        simp only [LoopExit.finished.injEq] at h
        omega

/-- C2: along every fetch, (1) every URL actually requested passed the
validator immediately beforehand — the engine never issues a request to a URL
it did not validate; (2) at most maxRedirects requests are issued in total
(the initial URL plus at most four followed hops — the fifth pending redirect
trips the cap); (3) the first hop failing validation aborts the fetch with
the empty string; (4) a redirect still pending once the cap is reached
aborts the fetch with the empty string, so content reachable only past an
unvalidated or capped hop is never returned. -/
theorem redirect_loop_revalidates_every_hop (env : FetchEnv)
    (render : HttpResponse → String) (url : String) :
    (∀ u ∈ (loopFuel env maxRedirects url 0 none).1, env.validate u = true) ∧
    (loopFuel env maxRedirects url 0 none).1.length ≤ maxRedirects ∧
    (∀ u, (loopFuel env maxRedirects url 0 none).2 = .blockedHop u →
      env.validate u = false ∧ fetchAndExtract env render url = "") ∧
    (∀ count r, (loopFuel env maxRedirects url 0 none).2 = .finished count (some r) →
      maxRedirects ≤ count → 300 ≤ r.status →
      fetchAndExtract env render url = "") := by
  obtain ⟨hv, hlen, hblk, _⟩ := loopFuel_invariants env maxRedirects url 0 none
  refine ⟨hv, hlen, ?_, ?_⟩
  · intro u h
    refine ⟨hblk u h, ?_⟩
    unfold fetchAndExtract
    rw [h]
  · intro count r h hcap hstat
    unfold fetchAndExtract
    rw [h]
    show (if maxRedirects ≤ count ∧ 300 ≤ r.status then ""
      else if r.status ≠ 200 then "" else render r) = ""
    rw [if_pos ⟨hcap, hstat⟩]

/-- A five-hop redirect chain whose third hop fails validation; the final
target would serve the string FINAL. -/
def chainEnv : FetchEnv where
  validate := fun u => decide (u ≠ "http://h3.example/")
  get := fun u =>
    if u = "http://h0.example/" then ⟨302, some "http://h1.example/", ""⟩
    else if u = "http://h1.example/" then ⟨302, some "http://h2.example/", ""⟩
    else if u = "http://h2.example/" then ⟨302, some "http://h3.example/", ""⟩
    else if u = "http://h3.example/" then ⟨302, some "http://h4.example/", ""⟩
    else if u = "http://h4.example/" then ⟨302, some "http://h5.example/", ""⟩
    else ⟨200, none, "FINAL"⟩
  join := fun _ loc => loc

/-- C2 witness: on the concrete chain the engine requests exactly hops 0-2,
never requests the tainted hop 3, and returns the empty string rather than
the content at hop 5. -/
theorem redirect_loop_revalidates_every_hop_witness :
    (loopFuel chainEnv maxRedirects "http://h0.example/" 0 none).1 =
      ["http://h0.example/", "http://h1.example/", "http://h2.example/"] ∧
    chainEnv.validate "http://h3.example/" = false ∧
    fetchAndExtract chainEnv (fun r => r.body) "http://h0.example/" = "" := by
  refine ⟨by decide, ?_⟩
  have h := (redirect_loop_revalidates_every_hop chainEnv (fun r => r.body)
    "http://h0.example/").2.2.1 "http://h3.example/" (by decide)
  exact h

/-! ## C4: HTML cleaning and candidate content selection

From web_search.py, _scrape_url, the BeautifulSoup stage.  An HTML tree is
a mutually inductive node/forest structure carrying the attributes the code
reads: tag, id, role, class list, children.  decompose-after-collect equals
top-down recursive removal (decomposing an element also removes every
descendant, and a descendant of a removed element never reappears), so both
removal passes are a recursive prune.  select_one returns the first match
in pre-order document order. -/

mutual
inductive HNode
  | text (s : String)
  | elem (tag : String) (idAttr : Option String) (roleAttr : Option String)
      (classes : List String) (children : HNodes)
inductive HNodes
  | nil
  | cons (head : HNode) (tail : HNodes)
end

mutual
/-- Remove every element whose tag/classes satisfy bad, with its subtree. -/
def pruneNode (bad : String → List String → Bool) : HNode → Option HNode
  | .text s => some (.text s)
  | .elem t i r c ch =>
    if bad t c then none
    else some (.elem t i r c (pruneNodes bad ch))

def pruneNodes (bad : String → List String → Bool) : HNodes → HNodes
  | .nil => .nil
  | .cons n rest =>
    match pruneNode bad n with
    | none => pruneNodes bad rest
    | some n' => .cons n' (pruneNodes bad rest)
end

/-- The CSS selectors appearing in content_selectors. -/
inductive Selector
  | tagSel (t : String)
  | roleMain
  | clsSel (c : String)
  | idSel (s : String)

def selMatches : Selector → HNode → Bool
  | .tagSel t, .elem t' _ _ _ _ => t == t'
  | .roleMain, .elem _ _ r _ _ => r == some "main"
  | .clsSel c, .elem _ _ _ cs _ => cs.contains c
  | .idSel s, .elem _ i _ _ _ => i == some s
  | _, .text _ => false

mutual
/-- soup.select_one: first matching element in pre-order document order. -/
def selectOne (s : Selector) : HNode → Option HNode
  | .text str => if selMatches s (.text str) then some (.text str) else none
  | .elem t i r c ch =>
    if selMatches s (.elem t i r c ch) then some (.elem t i r c ch)
    else selectOneList s ch

def selectOneList (s : Selector) : HNodes → Option HNode
  | .nil => none
  | .cons n rest =>
    match selectOne s n with
    | some m => some m
    | none => selectOneList s rest
end

mutual
/-- The text-node strings of a subtree in document order. -/
def textsOf : HNode → List String
  | .text s => [s]
  | .elem _ _ _ _ ch => textsOfList ch

def textsOfList : HNodes → List String
  | .nil => []
  | .cons n rest => textsOf n ++ textsOfList rest
end

/-- Python str.strip(). -/
def trimChars (l : List Char) : List Char :=
  ((l.dropWhile Char.isWhitespace).reverse.dropWhile Char.isWhitespace).reverse

/-- get_text(strip=True): stripped text-node strings, empties dropped,
concatenated (used by the 200-character length check). -/
def getTextStrip (n : HNode) : String :=
  ⟨(((textsOf n).map fun s => trimChars s.data).filter fun l => !l.isEmpty).flatten⟩

/-- get_text(separator=" ", strip=True): same pieces joined by a space. -/
def getTextSep (n : HNode) : String :=
  ⟨List.intercalate [' ']
    (((textsOf n).map fun s => trimChars s.data).filter fun l => !l.isEmpty)⟩

/-- The noise_tags list of _scrape_url. -/
def noiseTags : List String :=
  [ "script", "style", "nav", "footer", "header", "aside", "iframe", "form",
    "noscript", "svg", "button", "input", "select", "textarea", "label",
    "menu", "menuitem", "dialog", "template", "canvas", "video", "audio",
    "source", "picture" ]

/-- The content_selectors priority list of _scrape_url. -/
def contentSelectors : List Selector :=
  [ .tagSel "article", .tagSel "main", .roleMain, .clsSel "article-content",
    .clsSel "article-body", .clsSel "post-content", .clsSel "entry-content",
    .clsSel "content-body", .idSel "article-body", .idSel "content",
    .clsSel "story-body" ]

/-- Structural noise-tag removal (applies to every element of the tree). -/
def badNoiseTag : String → List String → Bool :=
  fun t _ => noiseTags.contains t

/-- The shipped class-based removal: substring matcher over the joined,
lowercased class tokens (elements without classes have the empty token list
and never match, like find_all(class_=True)). -/
def badNoiseClassCode : String → List String → Bool :=
  fun _ c => matchesNoiseClass c

/-- The selector loop: accept the first candidate whose stripped text length
exceeds 200 characters, else keep looking; None when the list is exhausted. -/
def selectContentFrom (root : HNode) : List Selector → Option HNode
  | [] => none
  | s :: rest =>
    match selectOne s root with
    | some c =>
      if 200 < (getTextStrip c).length then some c
      else selectContentFrom root rest
    | none => selectContentFrom root rest

/-- soup.body. -/
def findBody (root : HNode) : Option HNode :=
  selectOne (.tagSel "body") root

/-- A placeholder for the unreachable removal of the document root. -/
def emptyDoc : HNode := .elem "html" none none [] .nil

/-- The shipped extraction pipeline of _scrape_url (metadata capture and
truncation aside): noise-tag removal document-wide, then noise-CLASS removal
document-wide with the substring matcher, then the selector loop over the
cleaned tree, falling back to body, then get_text(separator=" ",
strip=True). -/
def codeExtract (doc : HNode) : String :=
  let d1 := (pruneNode badNoiseTag doc).getD emptyDoc
  let d2 := (pruneNode badNoiseClassCode d1).getD emptyDoc
  let content :=
    match selectContentFrom d2 contentSelectors with
    | some c => c
    | none => (findBody d2).getD d2
  getTextSep content

/-- Modelled from the spec: the scoped variant of the candidate loop that the
spec describes (and that the test suite's missing _process_scraped_content
implements): each selector is evaluated against the ORIGINAL tree, noise-class
removal (word-boundary matcher) is applied only within that candidate's
subtree, and the first candidate whose cleaned text is long enough wins. -/
def specCandidatesFrom (root : HNode) : List Selector → Option String
  | [] => none
  | s :: rest =>
    match selectOne s root with
    | some c =>
      match pruneNode (fun _ cls => matchesNoiseClassBoundary cls) c with
      | some cClean =>
        if 200 < (getTextStrip cClean).length then some (getTextSep cClean)
        else specCandidatesFrom root rest
      | none => specCandidatesFrom root rest
    | none => specCandidatesFrom root rest

/-- Modelled from the spec: the whole scoped extraction — document-wide
noise-tag removal, scoped per-candidate noise-class cleaning against the
original tree, fallback to body cleaned the same way. -/
def specScopedExtract (doc : HNode) : String :=
  let d1 := (pruneNode badNoiseTag doc).getD emptyDoc
  match specCandidatesFrom d1 contentSelectors with
  | some t => t
  | none =>
    let b := (findBody d1).getD d1
    match pruneNode (fun _ cls => matchesNoiseClassBoundary cls) b with
    | some bClean => getTextSep bClean
    | none => ""

/-- Long prose for the sidebar's article (>200 characters). -/
def proseA : String :=
  "The sidebar article keeps its own long run of words that reaches well past the two hundred character threshold for candidate acceptance, padded on and on with steady filler words to cross the line comfortably."

/-- Long prose for the main article (>200 characters). -/
def proseB : String :=
  "The main article carries the genuine story text that the reader actually wants, long enough to clear the two hundred character acceptance threshold on its own, with further plain words added to be safely past it."

/-- div class=sidebar holding a LONG article, followed by main > article. -/
def docLongSidebar : HNode :=
  .elem "html" none none [] (.cons
    (.elem "body" none none [] (.cons
      (.elem "div" none none ["sidebar"] (.cons
        (.elem "article" none none [] (.cons (.text proseA) .nil)) .nil))
      (.cons
        (.elem "main" none none [] (.cons
          (.elem "article" none none [] (.cons (.text proseB) .nil)) .nil))
        .nil))) .nil)

/-- The claim's example: div class=sidebar holding a SHORT article, followed
by main > article with over 200 characters of prose. -/
def docShortSidebar : HNode :=
  .elem "html" none none [] (.cons
    (.elem "body" none none [] (.cons
      (.elem "div" none none ["sidebar"] (.cons
        (.elem "article" none none [] (.cons (.text "short") .nil)) .nil))
      (.cons
        (.elem "main" none none [] (.cons
          (.elem "article" none none [] (.cons (.text proseB) .nil)) .nil))
        .nil))) .nil)

set_option maxRecDepth 8000 in
/-- C4 (code bug evidence): on the claim's example document the code does
return the main article's text and exclude the sidebar's — but not by the
claimed mechanism.  The code removes noise-classed subtrees document-wide
BEFORE evaluating the selector list on the cleaned tree, rather than
evaluating candidates against the original tree with cleaning scoped to each
candidate's subtree.  The two mechanisms are observably different: when the
sidebar's article itself holds over 200 characters, the scoped semantics the
spec describes accepts it (it is the first article of the original tree),
while the shipped code has already deleted the whole sidebar and returns the
main article's text instead. -/
theorem scoped_cleaning_missing_bug :
    codeExtract docShortSidebar = proseB ∧
    strContainsSub (codeExtract docShortSidebar) "short" = false ∧
    codeExtract docLongSidebar = proseB ∧
    specScopedExtract docLongSidebar = proseA ∧
    codeExtract docLongSidebar ≠ specScopedExtract docLongSidebar := by
  refine ⟨by decide, by decide, by decide, by decide, by decide⟩

/-! ## C5 and C7: the search orchestrator

From web_search.py: search, _normal_search, _deep_search, _deeper_search,
_multi_phase_search.  The DuckDuckGo provider, the scraper and urlparse are
an environment; a provider call either returns its result list (timeouts
already absorbed to [] inside _search_ddg) or raises, modelled as
Except.error, which search's try/except converts into an error-carrying
response.  asyncio.gather of independent scrapes is a map; the sequential
content_idx walk of the news phase pairs each non-blocked record with its
scrape result in order, i.e. scrapes exactly the non-blocked URLs. -/

structure SearchRecord where
  title : String
  href : String
  body : String
  deriving DecidableEq

/-- A news result; fields behind .get(...) are Options (absent vs present). -/
structure NewsRecord where
  url : String
  title : Option String
  body : Option String
  excerpt : Option String
  date : Option String
  deriving DecidableEq

structure ResultEntry where
  title : String
  url : String
  snippet : String
  content : Option String
  is_full_content : Bool
  phase : String
  date : Option String
  deriving DecidableEq

structure SearchResponse where
  results : List ResultEntry
  summary : Option String
  error : Option String
  depth : Option String
  deriving DecidableEq

structure OrchEnv where
  ddgText : String → Nat → Except String (List SearchRecord)
  ddgNews : String → Nat → Except String (List NewsRecord)
  scrape : String → Nat → String
  hostname : String → Option String

structure SearchConfig where
  broadResults : Nat
  newsResults : Nat
  targetedQueries : List String
  scrapeLimitBroad : Nat
  scrapeLimitNews : Nat
  scrapeLimitTargeted : Nat
  maxWords : Nat

/-- The _deep_search profile. -/
def deepConfig : SearchConfig :=
  ⟨8, 4, ["detailed analysis", "explained", "latest updates"], 5, 3, 3, 2000⟩

/-- The _deeper_search profile. -/
def deeperConfig : SearchConfig :=
  ⟨12, 6,
    ["comprehensive analysis", "expert opinions", "statistics data facts",
     "comparison pros cons", "future predictions outlook", "recent developments"],
    8, 5, 6, 3500⟩

def strEndsWith (s suffix : String) : Bool :=
  suffix.data.isSuffixOf s.data

/-- _is_allowed: empty allow-list admits everything, else the lowercased
hostname must equal an entry or end in "." plus an entry. -/
def isAllowed (env : OrchEnv) (allowed : List String) (url : String) : Bool :=
  if allowed.isEmpty then true
  else
    (allowed.any fun d =>
      strLower ((env.hostname url).getD "") == d ||
      strEndsWith (strLower ((env.hostname url).getD "")) ("." ++ d))

/-- _filter_results over web records (key "href"): drop empty URLs and
allow-list rejects. -/
def filterWeb (env : OrchEnv) (allowed : List String)
    (rs : List SearchRecord) : List SearchRecord :=
  rs.filter fun r => (r.href != "") && isAllowed env allowed r.href

/-- _filter_results over news records (key "url"). -/
def filterNews (env : OrchEnv) (allowed : List String)
    (rs : List NewsRecord) : List NewsRecord :=
  rs.filter fun r => (r.url != "") && isAllowed env allowed r.url

/-- news.get("body", news.get("excerpt", "")). -/
def newsSnippet (r : NewsRecord) : String :=
  r.body.getD (r.excerpt.getD "")

/-- The scraped-result dict shared by the broad, primary and targeted
phases: full content when the scrape returned text, else the provider
snippet. -/
def mkScrapedEntry (env : OrchEnv) (maxWords : Nat) (phase : String)
    (r : SearchRecord) : ResultEntry :=
  { title := r.title, url := r.href, snippet := r.body,
    content := some (if env.scrape r.href maxWords != "" then
      env.scrape r.href maxWords else r.body),
    is_full_content := env.scrape r.href maxWords != "",
    phase := phase, date := none }

/-- The news-phase dict of _multi_phase_search. -/
def mkNewsEntry (env : OrchEnv) (maxWords : Nat) (r : NewsRecord) : ResultEntry :=
  { title := r.title.getD "", url := r.url, snippet := newsSnippet r,
    content := some (if (if !isBlockedDomain r.url then
        env.scrape r.url maxWords else "") != "" then
      (if !isBlockedDomain r.url then env.scrape r.url maxWords else "")
      else r.body.getD ""),
    is_full_content :=
      (if !isBlockedDomain r.url then env.scrape r.url maxWords else "") != "",
    phase := "news", date := some (r.date.getD "") }

/-- The blocked-domain snippet loop of _multi_phase_search: sequential, with
an incremental membership check against existing_urls. -/
def addBlockedSnippets : List SearchRecord → List String →
    (List ResultEntry × List String)
  | [], existing => ([], existing)
  | r :: rest, existing =>
    if existing.contains r.href then addBlockedSnippets rest existing
    else
      let p := addBlockedSnippets rest (existing ++ [r.href])
      ({ title := r.title, url := r.href, snippet := r.body, content := none,
         is_full_content := false, phase := "broad", date := none } :: p.1, p.2)

/-- scrapeable_broad: unblocked, allowed broad results up to the scrape
budget. -/
def scrapeableBroadOf (env : OrchEnv) (allowed : List String)
    (cfg : SearchConfig) (broad : List SearchRecord) : List SearchRecord :=
  (broad.filter fun r =>
    !isBlockedDomain r.href && isAllowed env allowed r.href).take cfg.scrapeLimitBroad

/-- The blocked-snippet loop run on blocked_broad[:2] with existing_urls
holding the scraped broad URLs. -/
def blockedPairOf (env : OrchEnv) (allowed : List String) (cfg : SearchConfig)
    (broad : List SearchRecord) : List ResultEntry × List String :=
  addBlockedSnippets ((broad.filter fun r => isBlockedDomain r.href).take 2)
    ((scrapeableBroadOf env allowed cfg broad).map fun r => r.href)

/-- unique_news: news records with a URL, not yet collected, allowed, up to
the news scrape budget. -/
def uniqueNewsOf (env : OrchEnv) (allowed : List String) (cfg : SearchConfig)
    (broad : List SearchRecord) (news : List NewsRecord) : List NewsRecord :=
  (news.filter fun r =>
    (r.url != "") && !(blockedPairOf env allowed cfg broad).2.contains r.url &&
      isAllowed env allowed r.url).take cfg.scrapeLimitNews

/-- existing_urls after the news phase. -/
def existing3Of (env : OrchEnv) (allowed : List String) (cfg : SearchConfig)
    (broad : List SearchRecord) (news : List NewsRecord) : List String :=
  (blockedPairOf env allowed cfg broad).2 ++
    (uniqueNewsOf env allowed cfg broad news).map fun r => r.url

/-- scrapeable_targeted: flattened targeted results deduplicated against the
URLs of the earlier phases only, capped, unblocked.  existing_urls is not
updated here and the batch itself is not deduplicated. -/
def scrapeableTargetedOf (env : OrchEnv) (allowed : List String)
    (cfg : SearchConfig) (broad : List SearchRecord) (news : List NewsRecord)
    (allTargeted : List SearchRecord) : List SearchRecord :=
  ((allTargeted.filter fun r =>
      !(existing3Of env allowed cfg broad news).contains r.href &&
        isAllowed env allowed r.href).take cfg.scrapeLimitTargeted).filter
    fun r => !isBlockedDomain r.href

/-- The phase assembly of _multi_phase_search after the provider calls:
broad scrape phase, blocked-snippet phase, news phase, targeted phase. -/
def multiPhaseAssemble (env : OrchEnv) (allowed : List String)
    (cfg : SearchConfig) (depthName : String) (broad : List SearchRecord)
    (news : List NewsRecord) (allTargeted : List SearchRecord) : SearchResponse :=
  { results :=
      (scrapeableBroadOf env allowed cfg broad).map
        (mkScrapedEntry env cfg.maxWords "broad") ++
      (blockedPairOf env allowed cfg broad).1 ++
      (uniqueNewsOf env allowed cfg broad news).map (mkNewsEntry env cfg.maxWords) ++
      (scrapeableTargetedOf env allowed cfg broad news allTargeted).map
        (mkScrapedEntry env cfg.maxWords "targeted"),
    summary := none, error := none, depth := some depthName }

/-- _multi_phase_search: broad and news provider calls, the no-result early
return, then the targeted provider calls and the assembly. -/
def multiPhaseSearch (env : OrchEnv) (allowed : List String) (query : String)
    (cfg : SearchConfig) (depthName : String) : Except String SearchResponse := do
  let broadRaw ← env.ddgText query cfg.broadResults
  let newsRaw ← env.ddgNews query cfg.newsResults
  let broad := filterWeb env allowed broadRaw
  let news := filterNews env allowed newsRaw
  if broad.isEmpty && news.isEmpty then
    pure { results := [], summary := some "No results found.",
           error := none, depth := none }
  else do
    let targetedLists ←
      (cfg.targetedQueries.map fun suffix => query ++ " " ++ suffix).mapM
        (fun q => env.ddgText q 3)
    pure (multiPhaseAssemble env allowed cfg depthName broad news
      targetedLists.flatten)

def deepSearch (env : OrchEnv) (allowed : List String) (query : String) :
    Except String SearchResponse :=
  multiPhaseSearch env allowed query deepConfig "deep"

def deeperSearch (env : OrchEnv) (allowed : List String) (query : String) :
    Except String SearchResponse :=
  multiPhaseSearch env allowed query deeperConfig "deeper"

/-- The snippet loop of _normal_search: walk all web results, adding at most
two not yet seen, updating existing_urls incrementally. -/
def addSnippetEntries : List SearchRecord → List String → Nat →
    (List ResultEntry × List String)
  | [], existing, _ => ([], existing)
  | r :: rest, existing, count =>
    if !existing.contains r.href && count < 2 then
      let p := addSnippetEntries rest (existing ++ [r.href]) (count + 1)
      ({ title := r.title, url := r.href, snippet := r.body, content := none,
         is_full_content := false, phase := "snippet", date := none } :: p.1, p.2)
    else addSnippetEntries rest existing count

/-- _normal_search: 5 web + 2 news results, scrape the first two unblocked of
the top four, two snippet entries, one news entry. -/
def normalSearch (env : OrchEnv) (allowed : List String) (query : String) :
    Except String SearchResponse := do
  let webRaw ← env.ddgText query 5
  let newsRaw ← env.ddgNews query 2
  let results := filterWeb env allowed webRaw
  let news := filterNews env allowed newsRaw
  if results.isEmpty && news.isEmpty then
    pure { results := [], summary := some "No results found.",
           error := none, depth := none }
  else
    let scrapeable := ((results.take 4).filter fun r =>
      !isBlockedDomain r.href).take 2
    let primary := scrapeable.map (mkScrapedEntry env 1000 "primary")
    let existing1 := scrapeable.map (fun r => r.href)
    let snippetPair := addSnippetEntries results existing1 0
    let newsEntries := ((news.take 1).filter fun r =>
      (r.url != "") && !snippetPair.2.contains r.url).map fun r =>
      { title := r.title.getD "", url := r.url, snippet := newsSnippet r,
        content := none, is_full_content := false, phase := "news",
        date := some (r.date.getD "") }
    pure { results := primary ++ snippetPair.1 ++ newsEntries,
           summary := none, error := none, depth := some "normal" }

inductive SearchReject
  | queryTooLong
  | rateLimited
  deriving DecidableEq

/-- search(): the 413 length guard and the rate limiter run before the
try-block and surface as rejections; inside it the depth dispatch runs and
any raised error is absorbed into an error-carrying response. -/
def searchService (env : OrchEnv) (allowed : List String) (limit : Nat)
    (now : ℤ) (ts : List ℤ) (query depth : String) :
    Except SearchReject (SearchResponse × List ℤ) :=
  if 500 < query.length then .error .queryTooLong
  else
    match enforceRateLimit limit now ts with
    | none => .error .rateLimited
    | some ts' =>
      let body :=
        if depth == "deeper" then deeperSearch env allowed query
        else if depth == "deep" then deepSearch env allowed query
        else normalSearch env allowed query
      match body with
      | .ok r => .ok (r, ts')
      | .error e =>
        .ok ({ results := [], summary := none, error := some e, depth := none }, ts')

theorem mkScrapedEntry_url (env : OrchEnv) (w : Nat) (ph : String)
    (xs : List SearchRecord) :
    ((xs.map (mkScrapedEntry env w ph)).map fun e => e.url) =
      xs.map fun r => r.href := by
  rw [List.map_map]
  rfl

theorem mkScrapedEntry_phase (env : OrchEnv) (w : Nat) (ph : String)
    (r : SearchRecord) : (mkScrapedEntry env w ph r).phase = ph := rfl

theorem mkNewsEntry_url (env : OrchEnv) (w : Nat) (xs : List NewsRecord) :
    ((xs.map (mkNewsEntry env w)).map fun e => e.url) = xs.map fun r => r.url := by
  rw [List.map_map]
  rfl

theorem mkNewsEntry_phase (env : OrchEnv) (w : Nat) (r : NewsRecord) :
    (mkNewsEntry env w r).phase = "news" := rfl

theorem addBlockedSnippets_cons (r : SearchRecord) (rest : List SearchRecord)
    (existing : List String) :
    addBlockedSnippets (r :: rest) existing =
      if existing.contains r.href then addBlockedSnippets rest existing
      else
        let p := addBlockedSnippets rest (existing ++ [r.href])
        ({ title := r.title, url := r.href, snippet := r.body, content := none,
           is_full_content := false, phase := "broad", date := none } :: p.1,
         p.2) := rfl

theorem addBlockedSnippets_spec (rs : List SearchRecord) :
    ∀ existing : List String,
      (((addBlockedSnippets rs existing).1.map fun e => e.url).Nodup) ∧
      (∀ e ∈ (addBlockedSnippets rs existing).1, e.url ∉ existing) ∧
      (addBlockedSnippets rs existing).2 =
        existing ++ (addBlockedSnippets rs existing).1.map (fun e => e.url) ∧
      (∀ e ∈ (addBlockedSnippets rs existing).1, e.phase = "broad") := by
  induction rs with
  | nil =>
    intro existing
    refine ⟨List.nodup_nil, ?_, (List.append_nil existing).symm, ?_⟩
    · intro e he
      exact absurd he (List.not_mem_nil e)
    · intro e he
      exact absurd he (List.not_mem_nil e)
  | cons r rest ih =>
    intro existing
    rw [addBlockedSnippets_cons]
    by_cases hmem : existing.contains r.href = true
    · rw [if_pos hmem]
      exact ih existing
    · rw [if_neg hmem]
      obtain ⟨ihn, ihe, ihx, ihp⟩ := ih (existing ++ [r.href])
      have hnotmem : r.href ∉ existing := by
        intro hc
        exact hmem (List.elem_eq_true_of_mem hc)
      refine ⟨?_, ?_, ?_, ?_⟩
      · simp only [List.map_cons]
        refine List.nodup_cons.mpr ⟨?_, ihn⟩
        intro hc
        rcases List.mem_map.mp hc with ⟨e, he, heq⟩
        have := ihe e he
        rw [heq] at this
        exact this (by simp)
      · intro e he
        rcases List.mem_cons.mp he with rfl | he'
        · exact hnotmem
        · intro hc
          exact ihe e he' (List.mem_append_left _ hc)
      · simp only [List.map_cons]
        rw [ihx, List.append_assoc]
        rfl
      · intro e he
        rcases List.mem_cons.mp he with rfl | he'
        · rfl
        · exact ihp e he'

theorem sublist_map_href_nodup {xs ys : List SearchRecord}
    (hsub : xs.Sublist ys) (h : (ys.map fun r => r.href).Nodup) :
    (xs.map fun r => r.href).Nodup :=
  List.Nodup.sublist (List.Sublist.map _ hsub) h

/-- C5 (amended): provided the broad and news provider lists are free of
duplicate URLs, every URL among the broad- and news-phase entries appears
only once, and no targeted-phase entry repeats a URL of an earlier phase;
the only duplication the assembly permits is among targeted-phase entries
themselves. -/
theorem multiphase_dedup (env : OrchEnv) (allowed : List String)
    (cfg : SearchConfig) (dn : String) (broad : List SearchRecord)
    (news : List NewsRecord) (allTargeted : List SearchRecord)
    (hb : (broad.map fun r => r.href).Nodup)
    (hn : (news.map fun r => r.url).Nodup) :
    ((((multiPhaseAssemble env allowed cfg dn broad news allTargeted).results.filter
        fun e => e.phase != "targeted").map fun e => e.url).Nodup) ∧
    (∀ e ∈ (multiPhaseAssemble env allowed cfg dn broad news allTargeted).results,
      e.phase = "targeted" →
      ∀ e' ∈ (multiPhaseAssemble env allowed cfg dn broad news allTargeted).results,
        e'.phase ≠ "targeted" → e.url ≠ e'.url) := by
  obtain ⟨hbn0, hbe0, hbx0, hbp0⟩ :=
    addBlockedSnippets_spec ((broad.filter fun r => isBlockedDomain r.href).take 2)
      ((scrapeableBroadOf env allowed cfg broad).map fun r => r.href)
  have hbn : ((blockedPairOf env allowed cfg broad).1.map fun e => e.url).Nodup := hbn0
  have hbe : ∀ e ∈ (blockedPairOf env allowed cfg broad).1,
      e.url ∉ (scrapeableBroadOf env allowed cfg broad).map (fun r => r.href) := hbe0
  have hbx : (blockedPairOf env allowed cfg broad).2 =
      ((scrapeableBroadOf env allowed cfg broad).map fun r => r.href) ++
        (blockedPairOf env allowed cfg broad).1.map (fun e => e.url) := hbx0
  have hbp : ∀ e ∈ (blockedPairOf env allowed cfg broad).1, e.phase = "broad" := hbp0
  have hres : (multiPhaseAssemble env allowed cfg dn broad news allTargeted).results =
      (scrapeableBroadOf env allowed cfg broad).map
        (mkScrapedEntry env cfg.maxWords "broad") ++
      (blockedPairOf env allowed cfg broad).1 ++
      (uniqueNewsOf env allowed cfg broad news).map (mkNewsEntry env cfg.maxWords) ++
      (scrapeableTargetedOf env allowed cfg broad news allTargeted).map
        (mkScrapedEntry env cfg.maxWords "targeted") := rfl
  -- URL lists of the three non-targeted phases
  have hBnodup : ((scrapeableBroadOf env allowed cfg broad).map fun r => r.href).Nodup := by
    apply sublist_map_href_nodup _ hb
    exact (List.take_sublist _ _).trans (List.filter_sublist _)
  have hNsub : (uniqueNewsOf env allowed cfg broad news).Sublist news :=
    (List.take_sublist _ _).trans (List.filter_sublist _)
  have hNnodup : ((uniqueNewsOf env allowed cfg broad news).map fun r => r.url).Nodup :=
    List.Nodup.sublist (List.Sublist.map _ hNsub) hn
  have hNnotin : ∀ r ∈ uniqueNewsOf env allowed cfg broad news,
      r.url ∉ (blockedPairOf env allowed cfg broad).2 := by
    intro r hr
    have hrf : r ∈ news.filter fun r =>
        (r.url != "") && !(blockedPairOf env allowed cfg broad).2.contains r.url &&
          isAllowed env allowed r.url :=
      (List.take_sublist _ _).subset hr
    have hpred := List.of_mem_filter hrf
    intro hc
    simp only [Bool.and_eq_true, Bool.not_eq_true'] at hpred
    have hcontains : (blockedPairOf env allowed cfg broad).2.contains r.url = true :=
      List.elem_eq_true_of_mem hc
    rw [hpred.1.2] at hcontains
    exact Bool.noConfusion hcontains
  -- the filtered non-targeted prefix
  have hphases : ((multiPhaseAssemble env allowed cfg dn broad news allTargeted).results.filter
      fun e => e.phase != "targeted") =
      (scrapeableBroadOf env allowed cfg broad).map
        (mkScrapedEntry env cfg.maxWords "broad") ++
      (blockedPairOf env allowed cfg broad).1 ++
      (uniqueNewsOf env allowed cfg broad news).map (mkNewsEntry env cfg.maxWords) := by
    rw [hres, List.filter_append, List.filter_append, List.filter_append]
    have h1 : ((scrapeableBroadOf env allowed cfg broad).map
        (mkScrapedEntry env cfg.maxWords "broad")).filter
          (fun e => e.phase != "targeted") =
        (scrapeableBroadOf env allowed cfg broad).map
          (mkScrapedEntry env cfg.maxWords "broad") := by
      apply List.filter_eq_self.mpr
      intro e he
      rcases List.mem_map.mp he with ⟨r, _, rfl⟩
      rfl
    have h2 : ((blockedPairOf env allowed cfg broad).1.filter
        fun e => e.phase != "targeted") = (blockedPairOf env allowed cfg broad).1 := by
      apply List.filter_eq_self.mpr
      intro e he
      rw [show e.phase = "broad" from hbp e he]
      rfl
    have h3 : (((uniqueNewsOf env allowed cfg broad news).map
        (mkNewsEntry env cfg.maxWords)).filter fun e => e.phase != "targeted") =
        (uniqueNewsOf env allowed cfg broad news).map (mkNewsEntry env cfg.maxWords) := by
      apply List.filter_eq_self.mpr
      intro e he
      rcases List.mem_map.mp he with ⟨r, _, rfl⟩
      rfl
    have h4 : (((scrapeableTargetedOf env allowed cfg broad news allTargeted).map
        (mkScrapedEntry env cfg.maxWords "targeted")).filter
          fun e => e.phase != "targeted") = [] := by
      apply List.filter_eq_nil_iff.mpr
      intro e he
      rcases List.mem_map.mp he with ⟨r, _, rfl⟩
      simp [mkScrapedEntry_phase]
    rw [h1, h2, h3, h4, List.append_nil]
  constructor
  · rw [hphases, List.map_append, List.map_append, mkScrapedEntry_url, mkNewsEntry_url]
    refine List.Nodup.append (List.Nodup.append hBnodup hbn ?_) hNnodup ?_
    · intro a haB haP
      rcases List.mem_map.mp haP with ⟨e, he, heq⟩
      have := hbe e he
      rw [heq] at this
      exact this haB
    · intro a haBP haN
      rcases List.mem_map.mp haN with ⟨rn, hrn, heq⟩
      have hnot := hNnotin rn hrn
      rw [hbx] at hnot
      rw [heq] at hnot
      exact hnot haBP
  · intro e he hph e' he' hph'
    -- e is a targeted entry
    have hesplit : e ∈ (scrapeableTargetedOf env allowed cfg broad news allTargeted).map
        (mkScrapedEntry env cfg.maxWords "targeted") := by
      have hmem : e ∈ (multiPhaseAssemble env allowed cfg dn broad news allTargeted).results := he
      rw [hres] at hmem
      simp only [List.mem_append] at hmem
      rcases hmem with ((h1 | h1) | h1) | h1
      · rcases List.mem_map.mp h1 with ⟨r, _, rfl⟩
        exact absurd hph (by simp [mkScrapedEntry_phase])
      · have := hbp e h1
        rw [this] at hph
        exact absurd hph (by simp)
      · rcases List.mem_map.mp h1 with ⟨r, _, rfl⟩
        exact absurd hph (by simp [mkNewsEntry_phase])
      · exact h1
    -- e' is a non-targeted entry, so its URL is in existing3
    have he'mem : e'.url ∈ existing3Of env allowed cfg broad news := by
      have hmem : e' ∈ (multiPhaseAssemble env allowed cfg dn broad news allTargeted).results := he'
      rw [hres] at hmem
      simp only [List.mem_append] at hmem
      unfold existing3Of
      rcases hmem with ((h1 | h1) | h1) | h1
      · rcases List.mem_map.mp h1 with ⟨r, hr, rfl⟩
        rw [hbx]
        apply List.mem_append_left
        apply List.mem_append_left
        exact List.mem_map.mpr ⟨r, hr, rfl⟩
      · rw [hbx]
        apply List.mem_append_left
        apply List.mem_append_right
        exact List.mem_map.mpr ⟨e', h1, rfl⟩
      · rcases List.mem_map.mp h1 with ⟨r, hr, rfl⟩
        apply List.mem_append_right
        exact List.mem_map.mpr ⟨r, hr, rfl⟩
      · rcases List.mem_map.mp h1 with ⟨r, _, rfl⟩
        exact absurd rfl hph'
    -- but e's URL was filtered against existing3
    rcases List.mem_map.mp hesplit with ⟨r, hr, rfl⟩
    have hrf : r ∈ allTargeted.filter fun r =>
        !(existing3Of env allowed cfg broad news).contains r.href &&
          isAllowed env allowed r.href := by
      have := List.mem_of_mem_filter hr
      exact (List.take_sublist _ _).subset this
    have hpred := List.of_mem_filter hrf
    simp only [Bool.and_eq_true, Bool.not_eq_true'] at hpred
    show (mkScrapedEntry env cfg.maxWords "targeted" r).url ≠ e'.url
    intro hurl
    have hu : (mkScrapedEntry env cfg.maxWords "targeted" r).url = r.href := rfl
    rw [hu] at hurl
    have hcontains : (existing3Of env allowed cfg broad news).contains e'.url = true :=
      List.elem_eq_true_of_mem he'mem
    rw [← hurl] at hcontains
    rw [hpred.1] at hcontains
    exact Bool.noConfusion hcontains

/-- A provider on which two targeted queries return the same URL. -/
def dupEnv : OrchEnv where
  ddgText := fun q _ =>
    if q = "q" then .ok [⟨"A", "http://a.example/", "sa"⟩]
    else if q = "q detailed analysis" then .ok [⟨"X", "http://x.example/", "sx"⟩]
    else if q = "q explained" then .ok [⟨"X", "http://x.example/", "sx"⟩]
    else .ok []
  ddgNews := fun _ _ => .ok []
  scrape := fun _ _ => ""
  hostname := fun _ => none

/-- C5 (counterexample): a deep search on dupEnv returns a results list in
which http://x.example/ appears twice — two targeted follow-up queries both
returned it, the targeted batch is deduplicated only against earlier phases,
and existing_urls is not updated while targeted entries are appended. -/
theorem dedup_duplicate_url_counterexample :
    (searchService dupEnv [] 30 0 [] "q" "deep").toOption.map
        (fun p => p.1.results.map fun e => e.url) =
      some ["http://a.example/", "http://x.example/", "http://x.example/"] ∧
    ¬ (["http://a.example/", "http://x.example/", "http://x.example/"] :
        List String).Nodup := by
  exact ⟨by decide, by decide⟩

/-- C5 witness: the amended deduplication theorem applied to the concrete
assembly of the counterexample run. -/
theorem multiphase_dedup_witness :
    ((((multiPhaseAssemble dupEnv [] deepConfig "deep"
        [⟨"A", "http://a.example/", "sa"⟩] []
        [⟨"X", "http://x.example/", "sx"⟩,
         ⟨"X", "http://x.example/", "sx"⟩]).results.filter
        fun e => e.phase != "targeted").map fun e => e.url).Nodup) :=
  (multiphase_dedup dupEnv [] deepConfig "deep"
    [⟨"A", "http://a.example/", "sa"⟩] []
    [⟨"X", "http://x.example/", "sx"⟩, ⟨"X", "http://x.example/", "sx"⟩]
    (by decide) (by decide)).1

theorem multiPhase_empty (env : OrchEnv) (allowed : List String) (query : String)
    (cfg : SearchConfig) (dn : String)
    (hT : ∀ q n, env.ddgText q n = .ok ([] : List SearchRecord))
    (hN : ∀ q n, env.ddgNews q n = .ok ([] : List NewsRecord)) :
    multiPhaseSearch env allowed query cfg dn =
      .ok { results := [], summary := some "No results found.",
            error := none, depth := none } := by
  unfold multiPhaseSearch
  simp only [hT, hN]
  rfl

theorem normal_empty (env : OrchEnv) (allowed : List String) (query : String)
    (hT : ∀ q n, env.ddgText q n = .ok ([] : List SearchRecord))
    (hN : ∀ q n, env.ddgNews q n = .ok ([] : List NewsRecord)) :
    normalSearch env allowed query =
      .ok { results := [], summary := some "No results found.",
            error := none, depth := none } := by
  unfold normalSearch
  simp only [hT, hN]
  rfl

/-- C7 (amended): once past the length guard and the rate limiter, search
never raises — every depth branch either succeeds or has its raised error
absorbed into an error-carrying response — and when every provider call of
every phase yields zero results, the returned response is
results = [] with summary "No results found." and NO error field. -/
theorem search_absorbs_failures (env : OrchEnv) (allowed : List String)
    (limit : Nat) (now : ℤ) (ts : List ℤ) (query depth : String)
    (hlen : query.length ≤ 500)
    (hpass : enforceRateLimit limit now ts ≠ none) :
    (∃ resp ts', searchService env allowed limit now ts query depth =
      .ok (resp, ts')) ∧
    ((∀ q n, env.ddgText q n = .ok []) → (∀ q n, env.ddgNews q n = .ok []) →
      ∃ ts', searchService env allowed limit now ts query depth =
        .ok ({ results := [], summary := some "No results found.",
               error := none, depth := none }, ts')) := by
  obtain ⟨ts', hts⟩ := Option.ne_none_iff_exists'.mp hpass
  unfold searchService
  rw [if_neg (not_lt.mpr hlen), hts]
  constructor
  · rcases hb : (if depth == "deeper" then deeperSearch env allowed query
        else if depth == "deep" then deepSearch env allowed query
        else normalSearch env allowed query) with e | r
    · exact ⟨_, ts', rfl⟩
    · exact ⟨r, ts', rfl⟩
  · intro hT hN
    refine ⟨ts', ?_⟩
    by_cases hdeeper : (depth == "deeper") = true
    · have hd : deeperSearch env allowed query =
          .ok { results := [], summary := some "No results found.",
                error := none, depth := none } :=
        multiPhase_empty env allowed query deeperConfig "deeper" hT hN
      rw [if_pos hdeeper, hd]
    · rw [if_neg hdeeper]
      by_cases hdeep : (depth == "deep") = true
      · have hd : deepSearch env allowed query =
            .ok { results := [], summary := some "No results found.",
                  error := none, depth := none } :=
          multiPhase_empty env allowed query deepConfig "deep" hT hN
        rw [if_pos hdeep, hd]
      · have hd := normal_empty env allowed query hT hN
        rw [if_neg hdeep, hd]

/-- A provider yielding zero results on every call. -/
def emptyEnv : OrchEnv where
  ddgText := fun _ _ => .ok []
  ddgNews := fun _ _ => .ok []
  scrape := fun _ _ => ""
  hostname := fun _ => none

/-- C7 (counterexample): when every phase yields zero results, the returned
response carries summary "No results found." and NO error field — the claim's
SearchResponse with error "no results" is not what the code produces. -/
theorem no_results_error_field_counterexample :
    (searchService emptyEnv [] 30 0 [] "weather" "normal").toOption =
      some ({ results := [], summary := some "No results found.",
              error := none, depth := none }, [0]) ∧
    ({ results := [], summary := some "No results found.",
       error := none, depth := none } : SearchResponse).error ≠
      some "no results" := by
  exact ⟨by decide, by decide⟩

/-- C7 witness: the absorption theorem applied at the all-empty provider. -/
theorem search_absorbs_failures_witness :
    ∃ ts', searchService emptyEnv [] 30 0 [] "weather" "normal" =
      .ok ({ results := [], summary := some "No results found.",
             error := none, depth := none }, ts') :=
  (search_absorbs_failures emptyEnv [] 30 0 [] "weather" "normal" (by decide)
    (by decide)).2 (fun _ _ => rfl) (fun _ _ => rfl)

/-! ## C9: intent classification cache

From search_router.py: _BoundedTTLCache and SearchRouter.classify_intent.
The OrderedDict becomes an association list in insertion order (head =
oldest); get and set thread the cache explicitly.  The model call — HTTP
POST, status check, markdown/think-tag stripping and JSON parsing — is the
environment: ModelOutcome.ok carries a successfully parsed decision, and
ModelOutcome.fail covers a non-200 status, a JSON parse failure, a
think-only reply and a raised exception, all of which the code routes to
_heuristic_fallback.  Clock readings are integers as in the rate limiter. -/

structure IntentResult where
  needs_search : Bool
  search_query : String
  reason : String
  deriving DecidableEq

structure IntentEntry where
  value : IntentResult
  timestamp : ℤ
  deriving DecidableEq

/-- _BoundedTTLCache.get: miss on absent key; a hit past the TTL deletes the
entry and misses; a live hit moves the entry to the end and returns it. -/
def cacheGet (c : List (String × IntentEntry)) (ttl now : ℤ) (k : String) :
    Option IntentResult × List (String × IntentEntry) :=
  match c.find? fun p => p.1 == k with
  | none => (none, c)
  | some p =>
    if ttl < now - p.2.timestamp then
      (none, c.filter fun q => q.1 != k)
    else
      (some p.2.value, (c.filter fun q => q.1 != k) ++ [p])

/-- The while-loop of _BoundedTTLCache.set: pop the oldest entry while the
cache is at or beyond capacity. -/
def evictWhileFull (maxSize : Nat) : List (String × IntentEntry) →
    List (String × IntentEntry)
  | [] => []
  | p :: rest =>
    if maxSize ≤ (p :: rest).length then evictWhileFull maxSize rest
    else p :: rest

/-- _BoundedTTLCache.set: evict, then write the entry (in place for an
existing key, appended for a new one, as OrderedDict assignment does). -/
def cacheSet (c : List (String × IntentEntry)) (maxSize : Nat) (now : ℤ)
    (k : String) (v : IntentResult) : List (String × IntentEntry) :=
  if ((evictWhileFull maxSize c).find? fun p => p.1 == k).isSome then
    (evictWhileFull maxSize c).map fun p => if p.1 == k then (k, ⟨v, now⟩) else p
  else evictWhileFull maxSize c ++ [(k, ⟨v, now⟩)]

/-- Python s.startswith(pre). -/
def strStartsWith (s pre : String) : Bool :=
  pre.data.isPrefixOf s.data

/-- Python s.strip(). -/
def strTrim (s : String) : String :=
  ⟨trimChars s.data⟩

def coreTriggers : List String :=
  [ "price", "cost", "worth", "news", "latest", "recent", "update", "today",
    "yesterday", "this week", "this month", "current", "now", "live",
    "weather", "forecast", "search", "find", "look up", "google", "who is",
    "what is", "where is", "when is" ]

def temporalTriggers : List String :=
  [ "2024", "2025", "this year", "last year", "recently", "just", "new",
    "upcoming" ]

def comparisonTriggers : List String :=
  [ "vs", "versus", "compared to", "better than", "difference between",
    "which is better", "pros and cons", "review" ]

def questionTriggers : List String :=
  [ "how much", "how many", "how to", "what are", "what does",
    "what happened", "why did", "why is", "why are" ]

/-- _heuristic_fallback: any trigger occurring in the lowercased query flags
needs_search. -/
def heuristicFallback (query : String) : IntentResult :=
  { needs_search :=
      (coreTriggers ++ temporalTriggers ++ comparisonTriggers ++
        questionTriggers).any fun t => strContainsSub (strLower query) t,
    search_query := query, reason := "Heuristic fallback" }

inductive ModelOutcome
  | ok (r : IntentResult)
  | fail
  deriving DecidableEq

structure RouterEnv where
  model : String → ModelOutcome

structure ClassifyOutput where
  result : IntentResult
  cache : List (String × IntentEntry)
  invokedModel : Bool
  deriving DecidableEq

/-- classify_intent: the four fast exits, then the normalized-key cache
lookup, then the model call; a successful decision is written to the cache,
a failed call falls back to the heuristic without caching. -/
def classify_intent (env : RouterEnv) (ttl : ℤ) (maxSize : Nat)
    (cache : List (String × IntentEntry)) (now : ℤ) (query : String) :
    ClassifyOutput :=
  if strStartsWith (strLower query) "document content:" then
    ⟨{ needs_search := false, search_query := "",
       reason := "Document analysis (no search needed)" }, cache, false⟩
  else if 500 < query.length then
    ⟨{ needs_search := false, search_query := "",
       reason := "Long content (likely document/OCR)" }, cache, false⟩
  else if (splitWords query.data).length < 2 ∧
      (strLower query = "hi" ∨ strLower query = "hello" ∨
        strLower query = "test") then
    ⟨{ needs_search := false, search_query := "", reason := "Greeting" },
     cache, false⟩
  else if strContainsSub (strLower query) "search for" ||
      strContainsSub (strLower query) "look up" then
    ⟨{ needs_search := true, search_query := query,
       reason := "Explicit search request" }, cache, false⟩
  else
    let g := cacheGet cache ttl now (strTrim (strLower query))
    match g.1 with
    | some cached => ⟨cached, g.2, false⟩
    | none =>
      match env.model query with
      | .ok r => ⟨r, cacheSet g.2 maxSize now (strTrim (strLower query)) r, true⟩
      | .fail => ⟨heuristicFallback query, g.2, true⟩

/-- The complement of the four fast exits: such a query reaches the cached
classification path. -/
def reachesCachePath (query : String) : Bool :=
  !strStartsWith (strLower query) "document content:" &&
  !decide (500 < query.length) &&
  !decide ((splitWords query.data).length < 2 ∧
    (strLower query = "hi" ∨ strLower query = "hello" ∨
      strLower query = "test")) &&
  !(strContainsSub (strLower query) "search for" ||
    strContainsSub (strLower query) "look up")

theorem classify_cache_path (env : RouterEnv) (ttl : ℤ) (maxSize : Nat)
    (cache : List (String × IntentEntry)) (now : ℤ) (query : String)
    (hpath : reachesCachePath query = true) :
    classify_intent env ttl maxSize cache now query =
      (match (cacheGet cache ttl now (strTrim (strLower query))).1 with
       | some cached =>
         ⟨cached, (cacheGet cache ttl now (strTrim (strLower query))).2, false⟩
       | none =>
         match env.model query with
         | .ok r =>
           ⟨r, cacheSet (cacheGet cache ttl now (strTrim (strLower query))).2
             maxSize now (strTrim (strLower query)) r, true⟩
         | .fail =>
           ⟨heuristicFallback query,
            (cacheGet cache ttl now (strTrim (strLower query))).2, true⟩) := by
  unfold reachesCachePath at hpath
  simp only [Bool.and_eq_true, Bool.not_eq_true', Bool.or_eq_false_iff,
    decide_eq_false_iff_not] at hpath
  obtain ⟨⟨⟨h1, h2⟩, h3⟩, h4⟩ := hpath
  unfold classify_intent
  rw [if_neg (by simp [h1]), if_neg h2, if_neg h3,
    if_neg (by simp [h4.1, h4.2])]

theorem find?_eq_none_of_absent (cache : List (String × IntentEntry))
    (k : String) (habsent : ∀ e, (k, e) ∉ cache) :
    (cache.find? fun p => p.1 == k) = none := by
  apply List.find?_eq_none.mpr
  intro p hp hk
  have : p.1 = k := by simpa using hk
  apply habsent p.2
  rw [← this]
  exact hp

theorem evictWhileFull_sublist (maxSize : Nat) :
    ∀ c : List (String × IntentEntry), (evictWhileFull maxSize c).Sublist c := by
  intro c
  induction c with
  | nil => exact List.Sublist.refl _
  | cons p rest ih =>
    rw [show evictWhileFull maxSize (p :: rest) =
      (if maxSize ≤ (p :: rest).length then evictWhileFull maxSize rest
       else p :: rest) from rfl]
    by_cases h : maxSize ≤ (p :: rest).length
    · rw [if_pos h]
      exact ih.trans (List.sublist_cons_self p rest)
    · rw [if_neg h]

/-- C9: for a query on the cached classification path whose normalized key
is not yet cached — (ok branch) a successful model call is invoked on the
first classify_intent call, its decision is returned and cached, a second
call within the TTL window returns the same decision WITHOUT invoking the
model, and a later call past the TTL window invokes the model again;
(fail branch) a failed model call falls back to the heuristic decision and
writes nothing to the cache. -/
theorem intent_cache_ttl (env : RouterEnv) (ttl : ℤ) (maxSize : Nat)
    (cache : List (String × IntentEntry)) (now₁ : ℤ) (query : String)
    (hpath : reachesCachePath query = true)
    (habsent : ∀ e, (strTrim (strLower query), e) ∉ cache) :
    (∀ r, env.model query = .ok r →
      (classify_intent env ttl maxSize cache now₁ query).invokedModel = true ∧
      (classify_intent env ttl maxSize cache now₁ query).result = r ∧
      (∀ now₂, now₂ - now₁ ≤ ttl →
        (classify_intent env ttl maxSize
          (classify_intent env ttl maxSize cache now₁ query).cache now₂
          query).invokedModel = false ∧
        (classify_intent env ttl maxSize
          (classify_intent env ttl maxSize cache now₁ query).cache now₂
          query).result = r) ∧
      (∀ now₃, ttl < now₃ - now₁ →
        (classify_intent env ttl maxSize
          (classify_intent env ttl maxSize cache now₁ query).cache now₃
          query).invokedModel = true)) ∧
    (env.model query = .fail →
      (classify_intent env ttl maxSize cache now₁ query).invokedModel = true ∧
      (classify_intent env ttl maxSize cache now₁ query).result =
        heuristicFallback query ∧
      (classify_intent env ttl maxSize cache now₁ query).cache = cache) := by
  have hkey := find?_eq_none_of_absent cache (strTrim (strLower query)) habsent
  have hget1 : cacheGet cache ttl now₁ (strTrim (strLower query)) = (none, cache) := by
    unfold cacheGet
    rw [hkey]
  constructor
  · intro r hok
    have hc1 : classify_intent env ttl maxSize cache now₁ query =
        ⟨r, cacheSet cache maxSize now₁ (strTrim (strLower query)) r, true⟩ := by
      rw [classify_cache_path env ttl maxSize cache now₁ query hpath, hget1, hok]
    -- the key is absent from the evicted cache as well
    have habsent' : ∀ e, (strTrim (strLower query), e) ∉
        evictWhileFull maxSize cache := fun e hmem =>
      habsent e ((evictWhileFull_sublist maxSize cache).subset hmem)
    have hkey' := find?_eq_none_of_absent (evictWhileFull maxSize cache)
      (strTrim (strLower query)) habsent'
    have hset : cacheSet cache maxSize now₁ (strTrim (strLower query)) r =
        evictWhileFull maxSize cache ++
          [(strTrim (strLower query),
            ({ value := r, timestamp := now₁ } : IntentEntry))] := by
      unfold cacheSet
      rw [hkey']
      rfl
    have hfind2 : ((evictWhileFull maxSize cache ++
        [(strTrim (strLower query),
          ({ value := r, timestamp := now₁ } : IntentEntry))]).find?
          fun p => p.1 == strTrim (strLower query)) =
        some (strTrim (strLower query),
          ({ value := r, timestamp := now₁ } : IntentEntry)) := by
      rw [List.find?_append, hkey']
      simp
    refine ⟨by rw [hc1], by rw [hc1], ?_, ?_⟩
    · intro now₂ hwin
      have hget2 : (cacheGet (cacheSet cache maxSize now₁
          (strTrim (strLower query)) r) ttl now₂ (strTrim (strLower query))).1 =
          some r := by
        rw [hset]
        unfold cacheGet
        simp only [hfind2]
        rw [if_neg (by omega)]
      rw [hc1]
      have := classify_cache_path env ttl maxSize
        (cacheSet cache maxSize now₁ (strTrim (strLower query)) r) now₂ query hpath
      rw [this]
      rcases hg : (cacheGet (cacheSet cache maxSize now₁
          (strTrim (strLower query)) r) ttl now₂ (strTrim (strLower query))).1
        with _ | cached
      · rw [hg] at hget2
        exact absurd hget2 (by simp)
      · rw [hg] at hget2
        have hcr : cached = r := by
          injection hget2
        exact ⟨rfl, by rw [hcr]⟩
    · intro now₃ hexp
      have hget3 : (cacheGet (cacheSet cache maxSize now₁
          (strTrim (strLower query)) r) ttl now₃ (strTrim (strLower query))).1 =
          none := by
        rw [hset]
        unfold cacheGet
        simp only [hfind2]
        rw [if_pos (by omega)]
      rw [hc1]
      have := classify_cache_path env ttl maxSize
        (cacheSet cache maxSize now₁ (strTrim (strLower query)) r) now₃ query hpath
      rw [this]
      rcases hg : (cacheGet (cacheSet cache maxSize now₁
          (strTrim (strLower query)) r) ttl now₃ (strTrim (strLower query))).1
        with _ | cached
      · cases henv : env.model query <;> rfl
      · rw [hg] at hget3
        exact absurd hget3 (by simp)
  · intro hfail
    have hc1 : classify_intent env ttl maxSize cache now₁ query =
        ⟨heuristicFallback query, cache, true⟩ := by
      rw [classify_cache_path env ttl maxSize cache now₁ query hpath, hget1, hfail]
    exact ⟨by rw [hc1], by rw [hc1], by rw [hc1]⟩

/-- A model environment answering the example query with a fixed decision. -/
def routerEnvOk : RouterEnv where
  model := fun q =>
    if q = "capital of france" then
      .ok { needs_search := true, search_query := "capital of france",
            reason := "factual lookup" }
    else .fail

/-- C9 witness: on an empty cache, the first call at t=0 invokes the model,
the second call at t=100 (TTL 120) is served from the cache without a model
call and returns the same decision, and a call at t=500 invokes the model
again. -/
theorem intent_cache_ttl_witness :
    (classify_intent routerEnvOk 120 1000 [] 0 "capital of france").invokedModel
      = true ∧
    (classify_intent routerEnvOk 120 1000
      (classify_intent routerEnvOk 120 1000 [] 0 "capital of france").cache 100
      "capital of france").invokedModel = false ∧
    (classify_intent routerEnvOk 120 1000
      (classify_intent routerEnvOk 120 1000 [] 0 "capital of france").cache 100
      "capital of france").result =
      { needs_search := true, search_query := "capital of france",
        reason := "factual lookup" } ∧
    (classify_intent routerEnvOk 120 1000
      (classify_intent routerEnvOk 120 1000 [] 0 "capital of france").cache 500
      "capital of france").invokedModel = true := by
  have h := intent_cache_ttl routerEnvOk 120 1000 [] 0 "capital of france"
    (by decide) (fun e he => absurd he (List.not_mem_nil _))
  obtain ⟨hok, _⟩ := h
  obtain ⟨h1, _, h23, h4⟩ := hok
    { needs_search := true, search_query := "capital of france",
      reason := "factual lookup" } (by decide)
  exact ⟨h1, (h23 100 (by decide)).1, (h23 100 (by decide)).2,
    h4 500 (by decide)⟩

end Parallax
